import Mathlib

/-!
Verification development for the `irc_bot` repository (src/irc_bot/bot.py).

The Python code is shallowly embedded: each relevant method of `Bot` (and the
module-level decorators `command` / `regex`) becomes a pure Lean function over
`String`/`List Char`, and the side effects a method performs (writes to the
IRC transport, reconnecting, shutting the process down, dispatching handlers)
are reified as values of an `Effect` trace.  Python string operations
(`partition`, `lstrip`, `strip`, `startswith`, `in`, `split`) are embedded as
executable functions on the underlying character lists.
-/

/-! ## Embedded Python string primitives -/

/-- Python's whitespace set as used by `str.strip()` (space, tab, newline,
carriage return, vertical tab, form feed). -/
def isPySpace (c : Char) : Bool :=
  c = ' ' || c = '\t' || c = '\n' || c = '\r' || c = '\x0b' || c = '\x0c'

/-- Substring containment on character lists: embeds Python's `needle in hay`
for strings. -/
def isSub (needle : List Char) : List Char → Bool
  | [] => needle.isEmpty
  | c :: rest => needle.isPrefixOf (c :: rest) || isSub needle rest

/-- Worker for Python's `str.partition`: split a character list at the first
occurrence of `sep`, returning the parts before and after it (or `none` when
`sep` does not occur). -/
def partW (sep : List Char) : List Char → Option (List Char × List Char)
  | [] => none
  | c :: rest =>
    if sep.isPrefixOf (c :: rest) then some ([], (c :: rest).drop sep.length)
    else
      match partW sep rest with
      | some (pre, post) => some (c :: pre, post)
      | none => none

/-- Worker for Python's `str.split(sep)` (fuelled; fuel `length + 1` always
suffices because every found separator is nonempty). -/
def splitW (sep : List Char) : Nat → List Char → List (List Char)
  | 0, l => [l]
  | fuel + 1, l =>
    match partW sep l with
    | none => [l]
    | some (pre, post) => pre :: splitW sep fuel post

/-- Worker for Python's `str.strip()`: drop whitespace from both ends. -/
def stripW (l : List Char) : List Char :=
  (((l.dropWhile isPySpace).reverse.dropWhile isPySpace).reverse)

/-- Python `needle in hay` on strings. -/
def pyIn (needle hay : String) : Bool := isSub needle.data hay.data

/-- Python `s.partition(sep)`; returns `(before, sep, after)` at the first
occurrence of `sep`, or `(s, "", "")` when `sep` does not occur. -/
def pyPartition (s sep : String) : String × String × String :=
  match partW sep.data s.data with
  | some (pre, post) => (⟨pre⟩, sep, ⟨post⟩)
  | none => (s, "", "")

/-- Python `s.split(sep)` for a nonempty separator. -/
def pySplit (s sep : String) : List String :=
  (splitW sep.data (s.data.length + 1) s.data).map (fun l => ⟨l⟩)

/-- Python `s.strip()`. -/
def pyStrip (s : String) : String := ⟨stripW s.data⟩

/-- Python `s.lstrip(":")`: remove every leading colon. -/
def pyLstripColon (s : String) : String := ⟨s.data.dropWhile (· = ':')⟩

/-- Python `s.startswith(pre)`. -/
def pyStartswith (s pre : String) : Bool := pre.data.isPrefixOf s.data

/-- Concatenation of the lists produced for each element, in order: the shape
of every `for x in xs: if cond(x): do-something` loop in the source. -/
def gather (f : α → List β) : List α → List β
  | [] => []
  | a :: l => f a ++ gather f l

/-! ## Data model -/

/-- The `Trigger` record of bot.py (slots `channel`, `nick`, `message`,
`group`; `group` defaults to `None` and is filled by the `regex` decorator
with the match's captured text: the whole match plus the capture groups). -/
structure Trigger where
  channel : String
  nick : String
  message : String
  group : Option (String × List (Option String)) := none
  deriving DecidableEq

/-- The constructor arguments of `Bot.__init__` that the dispatcher and the
connection manager read. -/
structure Config where
  hostname : String
  nick : String
  channels : List String
  password : Option String
  deriving DecidableEq

/-- One observable side effect of processing inbound text:
`write s` is `self._writer.write(s.encode())`;
`reconnect` is `await self._reconnect()` (close the transport, reopen it and
replay the handshake);
`shutdown` is `await self._shutdown()` (close the transport and `sys.exit(1)`,
terminating the process);
`trigger t` is the construction of a `Trigger` followed by
`self._process_message(trigger)`, i.e. handler dispatch on `t`. -/
inductive Effect where
  | write : String → Effect
  | reconnect : Effect
  | shutdown : Effect
  | trigger : Trigger → Effect
  deriving DecidableEq

/-! ## Line codec and dispatcher (Bot._get_nick, Bot._get_message,
Bot._reply_to_ping, Bot._handle_error_response, Bot._handle_empty_response,
Bot._rejoin_when_kicked, Bot._process_line, Bot._process_text,
Bot._start_irc_bot) -/

/-- `Bot._get_nick`: `text.partition("!")[0].lstrip(":")`. -/
def getNick (text : String) : String :=
  pyLstripColon (pyPartition text "!").1

/-- `Bot._get_message`: `text.partition("PRIVMSG")[2].partition(":")[2]`. -/
def getMessage (text : String) : String :=
  (pyPartition (pyPartition text "PRIVMSG").2.2 ":").2.2

/-- `Bot._reply_to_ping`: on a line starting with `PING`, synchronously write
`PONG :<hostname>`. -/
def replyToPing (cfg : Config) (text : String) : List Effect :=
  if pyStartswith text "PING" then [Effect.write ("PONG :" ++ cfg.hostname ++ "\r\n")]
  else []

/-- `Bot._handle_error_response`: on a line starting with `ERROR`, reconnect. -/
def handleErrorResponse (text : String) : List Effect :=
  if pyStartswith text "ERROR" then [Effect.reconnect] else []

/-- `Bot._rejoin_when_kicked`: for every configured channel whose
`KICK <channel> <nick>` tag occurs in the line, write a `JOIN`. -/
def rejoinWhenKicked (cfg : Config) (text : String) : List Effect :=
  gather
    (fun channel =>
      if pyIn ("KICK " ++ channel ++ " " ++ cfg.nick) text
      then [Effect.write ("JOIN " ++ channel ++ "\r\n")] else [])
    cfg.channels

/-- `Bot._process_line`: extract nick and message; if the message is directed
at the bot (`startswith(f"{self.nick}:")`), strip the prefix up to the first
colon plus surrounding whitespace, and for every configured channel whose
`PRIVMSG <channel>` tag occurs in the raw line, build a `Trigger` and dispatch
the handlers on it. -/
def processLine (cfg : Config) (text : String) : List Effect :=
  let nick := getNick text
  let message := getMessage text
  if pyStartswith message (cfg.nick ++ ":") = false then []
  else
    let stripped := pyStrip (pyPartition message ":").2.2
    gather
      (fun channel =>
        if pyIn ("PRIVMSG " ++ channel) text
        then [Effect.trigger ⟨channel, nick, stripped, none⟩] else [])
      cfg.channels

/-- The body of the `for line in text.split("\r\n")` loop of
`Bot._process_text`: ping reply, error handling, empty-line handling
(`Bot._handle_empty_response`, whose `sys.exit(1)` aborts everything after
it — the returned Bool records that the process exited), kick rejoin, then
handler dispatch. -/
def processOneLine (cfg : Config) (line : String) : List Effect × Bool :=
  let ping := replyToPing cfg line
  let err := handleErrorResponse line
  if line = "" then (ping ++ err ++ [Effect.shutdown], true)
  else (ping ++ err ++ rejoinWhenKicked cfg line ++ processLine cfg line, false)

/-- The loop of `Bot._process_text` over the split lines; a `sys.exit` in
`Bot._handle_empty_response` stops the iteration. -/
def processLines (cfg : Config) : List String → List Effect
  | [] => []
  | l :: rest =>
    let p := processOneLine cfg l
    if p.2 then p.1 else p.1 ++ processLines cfg rest

/-- `Bot._process_text`: split the received text on `\r\n` and process each
line in order. -/
def processText (cfg : Config) (text : String) : List Effect :=
  processLines cfg (pySplit text "\r\n")

/-- Outcome of one `await asyncio.wait_for(self._recv(), timeout=600.0)` in
`Bot._start_irc_bot`: either the timeout fired or some (already decoded and
stripped) text arrived.  A read on a closed connection yields `data ""`. -/
inductive RecvResult where
  | timeout : RecvResult
  | data : String → RecvResult

/-- One iteration of the receive loop of `Bot._start_irc_bot`: a timeout logs
and calls `self._shutdown()`; received text goes to `Bot._process_text`. -/
def startIrcBotStep (cfg : Config) : RecvResult → List Effect
  | RecvResult.timeout => [Effect.shutdown]
  | RecvResult.data s => processText cfg s

/-! ## Send path and control listener (Bot._say, Bot.say,
Bot._process_socket_server_text, Bot._socket_server) -/

/-- `Bot._say`: write one `PRIVMSG` line, unless the message is empty
(Python truthiness of `if message:`). -/
def sayOne (message channel : String) : List String :=
  if message = "" then []
  else ["PRIVMSG " ++ channel ++ " :" ++ message ++ "\r\n"]

/-- `Bot.say`: with a truthy channel send to it, otherwise (channel `None` or
empty, again Python truthiness) broadcast to every configured channel in
order. -/
def sayLines (cfg : Config) (message : String) (channel : Option String) : List String :=
  match channel with
  | some c => if c = "" then gather (fun ch => sayOne message ch) cfg.channels
              else sayOne message c
  | none => gather (fun ch => sayOne message ch) cfg.channels

/-- `Bot._process_socket_server_text`: partition the control line at the first
space; a configured channel gets the remainder sent via `Bot.say` and the
acknowledgment echoed, anything else gets an unknown-channel notice.  Returns
(lines written to the IRC transport, lines written back to the control
connection). -/
def processSocketServerText (cfg : Config) (text : String) : List String × List String :=
  let p := pyPartition text " "
  let channel := p.1
  let message := p.2.2
  if channel ∈ cfg.channels then
    (sayLines cfg message (some channel), ["\x27" ++ message ++ "\x27\n"])
  else
    ([], ["\x27Unknown channel: " ++ channel ++ "\x27\n"])

/-- The per-connection loop of `Bot._socket_server`, applied to the successive
decoded reads of one control connection: each iteration writes the prompt,
strips the input, stops (closing the connection, recorded by the final Bool)
on an empty result, and otherwise processes the line.  Returns (IRC transport
lines, control-connection lines, whether the connection was closed). -/
def socketServerLoop (cfg : Config) : List String → List String × List String × Bool
  | [] => ([], [], false)
  | d :: rest =>
    let text := pyStrip d
    if text = "" then ([], [">>> "], true)
    else
      let wc := processSocketServerText cfg text
      let r := socketServerLoop cfg rest
      (wc.1 ++ r.1, ">>> " :: (wc.2 ++ r.2.1), r.2.2)

/-! ## Connection manager (Bot._connect, Bot._reconnect, Bot._register,
Bot._set_nick, Bot._identify, Bot._join_channels, Bot._join) -/

/-- One event on the connection: opening the TLS stream, closing the writer,
writing a protocol line, or sleeping (the join delay). -/
inductive ConnEvent where
  | openConn : ConnEvent
  | closeConn : ConnEvent
  | send : String → ConnEvent
  | sleep : Nat → ConnEvent
  deriving DecidableEq

/-- `Bot._register`: `USER <nick> 8 * :<nick>`. -/
def registerLine (cfg : Config) : String :=
  "USER " ++ cfg.nick ++ " 8 * :" ++ cfg.nick ++ "\r\n"

/-- `Bot._set_nick`: `NICK <nick>`. -/
def nickLine (cfg : Config) : String := "NICK " ++ cfg.nick ++ "\r\n"

/-- `Bot._identify`: `PRIVMSG NickServ :IDENTIFY <password>`. -/
def identifyLine (password : String) : String :=
  "PRIVMSG NickServ :IDENTIFY " ++ password ++ "\r\n"

/-- `Bot._join_channels` (spawned as a background task by `Bot._connect` with
its default `sleep_before_join=20`): sleep, then `JOIN` every configured
channel in order. -/
def joinChannelsTrace (cfg : Config) (sleepBeforeJoin : Nat) : List ConnEvent :=
  ConnEvent.sleep sleepBeforeJoin ::
    cfg.channels.map (fun channel => ConnEvent.send ("JOIN " ++ channel ++ "\r\n"))

/-- `Bot._connect`: open the stream, register, set the nick, identify when the
password is truthy (`if self.password:` — `None` and the empty string are
falsy), then run the delayed join task. -/
def connectTrace (cfg : Config) : List ConnEvent :=
  ConnEvent.openConn ::
    (ConnEvent.send (registerLine cfg) :: ConnEvent.send (nickLine cfg) ::
      ((match cfg.password with
        | some p => if p = "" then [] else [ConnEvent.send (identifyLine p)]
        | none => []) ++
       joinChannelsTrace cfg 20))

/-- `Bot._reconnect`: close the writer, then run `Bot._connect` in full. -/
def reconnectTrace (cfg : Config) : List ConnEvent :=
  ConnEvent.closeConn :: connectTrace cfg

/-! ## Handler and periodic-task registration (Bot.__init_subclass__) -/

/-- The class-level registry state of `Bot`: `_attrs`, `_actions`,
`_periodic_tasks`. -/
structure RegState where
  attrs : List String
  actions : List String
  periodicTasks : List String
  deriving DecidableEq

/-- One attribute of a declared `Bot` subclass, as seen by
`Bot.__init_subclass__`: its name and whether it carries the `_registered`
(handler) or `_periodic` (periodic task) marker set by the decorators. -/
structure ClassAttr where
  name : String
  registered : Bool
  periodic : Bool
  deriving DecidableEq

/-- The body of the `for attr, value in vars(cls).items()` loop of
`Bot.__init_subclass__`: skip `__doc__`/`__module__`; a name already in
`_attrs` logs an error and `sys.exit(1)`s (the `Except.error` case); otherwise
the name is appended to `_attrs` and, per its markers, to `_actions` and
`_periodic_tasks`. -/
def registerAttr (st : RegState) (a : ClassAttr) : Except String RegState :=
  if a.name = "__doc__" ∨ a.name = "__module__" then Except.ok st
  else if a.name ∈ st.attrs then Except.error a.name
  else
    Except.ok
      ⟨st.attrs ++ [a.name],
       st.actions ++ (if a.registered then [a.name] else []),
       st.periodicTasks ++ (if a.periodic then [a.name] else [])⟩

/-- `Bot.__init_subclass__` over the attributes of one declared subclass. -/
def initSubclass (st : RegState) : List ClassAttr → Except String RegState
  | [] => Except.ok st
  | a :: rest =>
    match registerAttr st a with
    | Except.ok st2 => initSubclass st2 rest
    | Except.error e => Except.error e

/-! ## Handler predicates (the command and regex decorators)

`command` runs its handler exactly when the registered string equals the
trigger's message.  `regex` calls `re.match(pattern, trigger.message)` —
matching anchored at the start of the message — and on success stores the
match's captured text on `trigger.group` before spawning the handler.
`re.match` is embedded as an executable anchored backtracking matcher
(`reMatch`) over a regex syntax `Re` covering the fragment the bot's handlers
use, with Python's preference order (alternation tries the left branch first,
repetition is greedy) and last-iteration-wins capture groups. -/

/-- Regex syntax: empty word, a character literal, `.` (any character), `$`
(end of input), concatenation, alternation, `*`, `+`, and a capturing
group. -/
inductive Re where
  | eps : Re
  | ch : Char → Re
  | any : Re
  | eos : Re
  | seq : Re → Re → Re
  | alt : Re → Re → Re
  | star : Re → Re
  | plus : Re → Re
  | group : Re → Re
  deriving DecidableEq

/-- Number of capturing groups, in opening order. -/
def numGroups : Re → Nat
  | Re.eps => 0
  | Re.ch _ => 0
  | Re.any => 0
  | Re.eos => 0
  | Re.seq a b => numGroups a + numGroups b
  | Re.alt a b => numGroups a + numGroups b
  | Re.star a => numGroups a
  | Re.plus a => numGroups a
  | Re.group a => numGroups a + 1

/-- Group vector for a subpattern that did not participate in the match. -/
def noneGroups (r : Re) : List (Option (List Char)) :=
  List.replicate (numGroups r) none

/-- Pointwise overwrite of capture groups: a later repetition iteration
replaces the groups it captured and keeps earlier captures elsewhere. -/
def mergeGroups (g1 g2 : List (Option (List Char))) : List (Option (List Char)) :=
  List.zipWith (fun x y => match y with | some v => some v | none => x) g1 g2

/-- Repetition of a subpattern whose match sets are computed by `runsA`:
greedy (more iterations preferred, matching Python), each iteration must
consume input, later iterations overwrite captured groups.  The fuel bounds
the iteration count; `length + 1` is always sufficient because every
iteration consumes at least one character. -/
def starRuns (runsA : List Char → List (List Char × List (Option (List Char))))
    (emptyG : List (Option (List Char))) :
    Nat → List Char → List (List Char × List (Option (List Char)))
  | 0, s => [(s, emptyG)]
  | fuel + 1, s =>
    gather
      (fun p =>
        if p.1.length < s.length then
          (starRuns runsA emptyG fuel p.1).map (fun q => (q.1, mergeGroups p.2 q.2))
        else [])
      (runsA s) ++
    [(s, emptyG)]

/-- All anchored matches of `r` against `s`, as pairs (remaining input,
captured groups), in Python's backtracking preference order (alternation
tries the left branch first, repetition is greedy). -/
def reRuns : Re → List Char → List (List Char × List (Option (List Char)))
  | Re.eps, s => [(s, [])]
  | Re.ch _, [] => []
  | Re.ch c, x :: rest => if x = c then [(rest, [])] else []
  | Re.any, [] => []
  | Re.any, _ :: rest => [(rest, [])]
  | Re.eos, s => if s.isEmpty then [(s, [])] else []
  | Re.seq a b, s =>
    gather (fun p => (reRuns b p.1).map (fun q => (q.1, p.2 ++ q.2)))
      (reRuns a s)
  | Re.alt a b, s =>
    ((reRuns a s).map (fun p => (p.1, p.2 ++ noneGroups b))) ++
    ((reRuns b s).map (fun q => (q.1, noneGroups a ++ q.2)))
  | Re.star a, s =>
    starRuns (fun t => reRuns a t) (noneGroups a) (s.length + 1) s
  | Re.plus a, s =>
    gather
      (fun p =>
        (starRuns (fun t => reRuns a t) (noneGroups a) (p.1.length + 1) p.1).map
          (fun q => (q.1, mergeGroups p.2 q.2)))
      (reRuns a s)
  | Re.group a, s =>
    (reRuns a s).map
      (fun p => (p.1, some (s.take (s.length - p.1.length)) :: p.2))

/-- `re.match(r, s)`: the first anchored match in preference order, returned
as (matched text, capture groups). -/
def reMatch (r : Re) (s : String) : Option (String × List (Option String)) :=
  (reRuns r s.data).head?.map
    (fun p =>
      (⟨s.data.take (s.data.length - p.1.length)⟩,
       p.2.map (fun g => g.map (fun l => (⟨l⟩ : String)))))

/-- The wrapper produced by the `command(command)` decorator: the handler task
is spawned (receiving the unchanged trigger) exactly when the registered
string equals `trigger.message`. -/
def commandWrapper (cmd : String) (t : Trigger) : List Trigger :=
  if cmd = t.message then [t] else []

/-- The wrapper produced by the `regex(regex)` decorator: on an anchored match
of `trigger.message`, set `trigger.group` from the match and spawn the handler
task; otherwise do nothing. -/
def regexWrapper (r : Re) (t : Trigger) : List Trigger :=
  match reMatch r t.message with
  | some m => [⟨t.channel, t.nick, t.message, some m⟩]
  | none => []

/-- Concatenation of single-character literals: the translation of a literal
string inside a pattern. -/
def reStr : List Char → Re
  | [] => Re.eps
  | c :: rest => Re.seq (Re.ch c) (reStr rest)

/-- The line shape `:<nick>!<user> PRIVMSG <channel> :<botname>: <text>`
quantified over by the directed-message claims. -/
def mkLine (nick user channel botname text : String) : String :=
  ":" ++ nick ++ "!" ++ user ++ " PRIVMSG " ++ channel ++ " :" ++ botname ++ ": " ++ text

/-- Modelled from the spec: `extract_sender(line)` takes the text before the
first `!` after stripping exactly one leading `:` (so a line with multiple
leading colons keeps all but the first).  This is the spec's description, to
be compared against the source's `Bot._get_nick`. -/
def specExtractSender (line : String) : String :=
  let stripped : List Char :=
    match line.data with
    | ':' :: rest => rest
    | l => l
  ⟨stripped.takeWhile (· ≠ '!')⟩

/-! ## Helper lemmas about the embedded string primitives -/

theorem isSub_iff (n : List Char) (h : List Char) : isSub n h = true ↔ n <:+: h := by
  induction h with
  | nil => simp [isSub]
  | cons c rest ih => simp [isSub, ih, List.infix_cons_iff]

theorem isSub_single (c : Char) (l : List Char) : isSub [c] l = true ↔ c ∈ l := by
  rw [isSub_iff]
  constructor
  · intro hin
    exact hin.subset (List.mem_singleton_self c)
  · intro hm
    obtain ⟨s, t, rfl⟩ := List.append_of_mem hm
    exact ⟨s, t, by simp⟩

theorem isSub_single_false (c : Char) (l : List Char) (h : c ∉ l) :
    isSub [c] l = false := by
  cases hv : isSub [c] l with
  | false => rfl
  | true => exact absurd ((isSub_single c l).mp hv) h

theorem isSub_cons_of_tail (n : List Char) (c : Char) (rest : List Char)
    (h : isSub n rest = true) : isSub n (c :: rest) = true := by
  simp [isSub, h]

theorem partW_append (sep a b : List Char) (hsep : sep ≠ [])
    (h : isSub sep (a ++ sep.dropLast) = false) :
    partW sep (a ++ sep ++ b) = some (a, b) := by
  induction a with
  | nil =>
    obtain ⟨s0, st, rfl⟩ := List.exists_cons_of_ne_nil hsep
    show partW (s0 :: st) (s0 :: (st ++ b)) = some ([], b)
    have hpre : (s0 :: st).isPrefixOf (s0 :: (st ++ b)) = true := by
      simp
    have hdrop : (s0 :: (st ++ b)).drop (s0 :: st).length = b := by
      simp
    simp [partW, hpre, hdrop]
  | cons x a2 ih =>
    have hlast := List.dropLast_append_getLast hsep
    have hbase : (x :: a2) ++ sep.dropLast <+: x :: (a2 ++ sep ++ b) := by
      refine ⟨sep.getLast hsep :: b, ?_⟩
      have hre : (x :: a2) ++ sep.dropLast ++ (sep.getLast hsep :: b) =
          (x :: a2) ++ ((sep.dropLast ++ [sep.getLast hsep]) ++ b) := by
        simp
      rw [hre, hlast]
      simp
    have hpre : sep.isPrefixOf (x :: (a2 ++ sep ++ b)) = false := by
      cases hv : sep.isPrefixOf (x :: (a2 ++ sep ++ b)) with
      | false => rfl
      | true =>
        exfalso
        have hp : sep <+: x :: (a2 ++ sep ++ b) :=
          List.isPrefixOf_iff_prefix.mp hv
        have hlen : sep.length ≤ ((x :: a2) ++ sep.dropLast).length := by
          have h1 : 0 < sep.length := List.length_pos.mpr hsep
          simp [List.length_dropLast]
          omega
        have hp2 : sep <+: (x :: a2) ++ sep.dropLast :=
          List.prefix_of_prefix_length_le hp hbase hlen
        have hinf : isSub sep ((x :: a2) ++ sep.dropLast) = true :=
          (isSub_iff sep _).mpr hp2.isInfix
        rw [hinf] at h
        simp at h
    have htail : isSub sep (a2 ++ sep.dropLast) = false := by
      cases hv : isSub sep (a2 ++ sep.dropLast) with
      | false => rfl
      | true =>
        have hc := isSub_cons_of_tail sep x _ hv
        rw [show x :: (a2 ++ sep.dropLast) = (x :: a2) ++ sep.dropLast from rfl] at hc
        rw [hc] at h
        simp at h
    show partW sep (x :: (a2 ++ sep ++ b)) = some (x :: a2, b)
    simp only [partW, hpre]
    rw [ih htail]
    simp

theorem pyPartition_append (a sep b : String) (hsep : sep.data ≠ [])
    (h : isSub sep.data (a.data ++ sep.data.dropLast) = false) :
    pyPartition (a ++ sep ++ b) sep = (a, sep, b) := by
  unfold pyPartition
  rw [show (a ++ sep ++ b).data = a.data ++ sep.data ++ b.data from by simp,
    partW_append sep.data a.data b.data hsep h]

theorem mem_gather {f : α → List β} {l : List α} {b : β} :
    b ∈ gather f l ↔ ∃ a, a ∈ l ∧ b ∈ f a := by
  induction l with
  | nil => simp [gather]
  | cons x xs ih =>
    simp [gather, ih]

theorem gather_nil_of {f : α → List β} {l : List α} (h : ∀ a ∈ l, f a = []) :
    gather f l = [] := by
  induction l with
  | nil => rfl
  | cons x xs ih =>
    simp only [gather, h x (List.mem_cons_self x xs),
      ih (fun a ha => h a (List.mem_cons_of_mem x ha)), List.nil_append]

theorem gather_single [DecidableEq α] {f : α → List β} {l : List α} {x : α}
    (hc : l.count x = 1) (h : ∀ y ∈ l, y ≠ x → f y = []) : gather f l = f x := by
  induction l with
  | nil => simp at hc
  | cons y ys ih =>
    by_cases hyx : y = x
    · subst hyx
      have hzero : ys.count y = 0 := by
        rw [List.count_cons_self] at hc
        omega
      have hnot : y ∉ ys := List.count_eq_zero.mp hzero
      have hnil : gather f ys = [] :=
        gather_nil_of (fun a ha => h a (List.mem_cons_of_mem y ha)
          (fun hax => hnot (hax ▸ ha)))
      simp [gather, hnil]
    · have hcount : ys.count x = 1 := by
        rw [List.count_cons_of_ne (fun hxy => hyx hxy.symm)] at hc
        exact hc
      have hy : f y = [] := h y (List.mem_cons_self y ys) hyx
      simp [gather, hy, ih hcount (fun a ha => h a (List.mem_cons_of_mem y ha))]

theorem pyStartswith_append_left (a b : String) :
    pyStartswith (a ++ b) a = true := by
  simp [pyStartswith]

theorem pyStartswith_false_of_ne_head (s p : String) (c d : Char)
    (cs ds : List Char) (hs : s.data = c :: cs) (hp : p.data = d :: ds)
    (hne : d ≠ c) : pyStartswith s p = false := by
  simp [pyStartswith, hs, hp, List.isPrefixOf, hne]

theorem pyStartswith_empty_false (s : String) (hp : s.data ≠ [])
    (h : pyStartswith "" s = true) : False := by
  simp [pyStartswith] at h
  obtain ⟨c, cs, hc⟩ := List.exists_cons_of_ne_nil hp
  rw [hc] at h
  simp [List.isPrefixOf] at h

theorem pyStartswith_head (s p : String) (c : Char) (cp : List Char)
    (hp : p.data = c :: cp) (h : pyStartswith s p = true) :
    ∃ cs, s.data = c :: cs := by
  unfold pyStartswith at h
  rw [hp] at h
  cases hs : s.data with
  | nil => rw [hs] at h; simp [List.isPrefixOf] at h
  | cons x xs =>
    rw [hs] at h
    simp only [List.isPrefixOf, Bool.and_eq_true, beq_iff_eq] at h
    refine ⟨xs, ?_⟩
    rw [h.1]


theorem dropWhile_of_head_ne (c : Char) (l : List Char)
    (h : ∀ x, l.head? = some x → ¬ x = c) :
    l.dropWhile (· = c) = l := by
  cases l with
  | nil => rfl
  | cons x xs =>
    have hx : ¬ x = c := h x rfl
    simp [List.dropWhile_cons, hx]

theorem partW_single_fst (c : Char) (l : List Char) :
    (match partW [c] l with
     | some p => p.1
     | none => l) = l.takeWhile (fun x => ! x = c) := by
  induction l with
  | nil => simp [partW]
  | cons x t ih =>
    by_cases hx : x = c
    · subst hx
      have hpre : [x].isPrefixOf (x :: t) = true := by
        simp [List.isPrefixOf]
      simp [partW, hpre, List.takeWhile_cons]
    · have hpre : [c].isPrefixOf (x :: t) = false := by
        simp [List.isPrefixOf]
        intro hc
        exact absurd hc.symm hx
      cases hpt : partW [c] t with
      | some p =>
        rw [hpt] at ih
        simp [partW, hpre, hpt, List.takeWhile_cons, hx, ← ih]
      | none =>
        rw [hpt] at ih
        simp [partW, hpre, hpt, List.takeWhile_cons, hx, ← ih]

theorem dropWhile_takeWhile_colon_comm (l : List Char) :
    (l.takeWhile (fun x => ! x = '!')).dropWhile (· = ':') =
    (l.dropWhile (· = ':')).takeWhile (fun x => ! x = '!') := by
  induction l with
  | nil => rfl
  | cons x t ih =>
    by_cases hcol : x = ':'
    · subst hcol
      simp [List.takeWhile_cons, List.dropWhile_cons, ih]
    · by_cases hbang : x = '!'
      · subst hbang
        simp [List.takeWhile_cons, List.dropWhile_cons]
      · simp [List.takeWhile_cons, List.dropWhile_cons, hcol, hbang]

theorem stripW_cons_space (l : List Char) : stripW (' ' :: l) = stripW l := by
  simp [stripW, List.dropWhile_cons, isPySpace]

theorem gather_singleton_map (f : α → β) (l : List α) :
    gather (fun a => [f a]) l = l.map f := by
  induction l with
  | nil => rfl
  | cons x xs ih => simp [gather, ih]

theorem gather_const_nil (l : List α) :
    gather (fun _ => ([] : List β)) l = [] :=
  gather_nil_of (fun _ _ => rfl)

theorem mem_rejoinWhenKicked (cfg : Config) (l : String) (e : Effect)
    (h : e ∈ rejoinWhenKicked cfg l) :
    ∃ c, e = Effect.write ("JOIN " ++ c ++ "\r\n") := by
  unfold rejoinWhenKicked at h
  rw [mem_gather] at h
  obtain ⟨a, _, hb⟩ := h
  cases hcond : pyIn ("KICK " ++ a ++ " " ++ cfg.nick) l with
  | false => rw [hcond] at hb; simp at hb
  | true =>
    rw [hcond] at hb
    simp at hb
    exact ⟨a, hb⟩

theorem mem_processLine (cfg : Config) (l : String) (e : Effect)
    (h : e ∈ processLine cfg l) : ∃ t, e = Effect.trigger t := by
  unfold processLine at h
  by_cases hg : pyStartswith (getMessage l) (cfg.nick ++ ":") = false
  · rw [if_pos hg] at h
    simp at h
  · rw [if_neg hg] at h
    rw [mem_gather] at h
    obtain ⟨a, _, hb⟩ := h
    cases hcond : pyIn ("PRIVMSG " ++ a) l with
    | false => rw [hcond] at hb; simp at hb
    | true =>
      rw [hcond] at hb
      simp at hb
      exact ⟨_, hb⟩

theorem head_ne_of_startswith_false (s pre : String) (c : Char)
    (hpre : pre.data = [c]) (h : pyStartswith s pre = false) :
    ∀ x, s.data.head? = some x → ¬ x = c := by
  intro x hx hxc
  subst hxc
  cases hs : s.data with
  | nil => rw [hs] at hx; simp at hx
  | cons y ys =>
    rw [hs] at hx
    simp at hx
    unfold pyStartswith at h
    rw [hpre, hs, hx] at h
    simp [List.isPrefixOf] at h

theorem dColon : (":" : String).data = [':'] := by decide

theorem dBang : ("!" : String).data = ['!'] := by decide

theorem dSpace : (" " : String).data = [' '] := by decide

theorem dPRIVMSG : ("PRIVMSG" : String).data = ['P', 'R', 'I', 'V', 'M', 'S', 'G'] := by decide

theorem dPRIVMSGsp : ("PRIVMSG " : String).data = ['P', 'R', 'I', 'V', 'M', 'S', 'G', ' '] := by
  decide

theorem dSpPRIVMSGsp : (" PRIVMSG " : String).data =
    [' ', 'P', 'R', 'I', 'V', 'M', 'S', 'G', ' '] := by decide

theorem dSpColon : (" :" : String).data = [' ', ':'] := by decide

theorem dColonSp : (": " : String).data = [':', ' '] := by decide

theorem dSpPRIVMS : (" PRIVMS" : String).data = [' ', 'P', 'R', 'I', 'V', 'M', 'S'] := by decide

/-! ## Claim theorems -/

/-- C9, counterexample: on the line `::alice!u`, `Bot._get_nick` returns
`alice` — `lstrip(":")` removes every leading colon — whereas the claimed
stripping of exactly one leading colon would return `:alice`.  The claim as
stated is therefore false of the code. -/
theorem C9_counterexample :
    getNick "::alice!u" = "alice" ∧
    specExtractSender "::alice!u" = ":alice" ∧
    ("alice" : String) ≠ ":alice" := by
  refine ⟨by decide, by decide, by decide⟩

/-- C9, amended: the extracted sender identity is the text before the first
`!` after stripping ALL leading colons from the line (a line with several
leading colons loses every one of them).  Stated as: the code's
take-before-`!`-then-strip-colons equals strip-all-colons-then-take, the
spec's operation order with `lstrip` semantics. -/
theorem C9_sender_strips_all_colons (line : String) :
    getNick line = ⟨(line.data.dropWhile (· = ':')).takeWhile (fun x => ! x = '!')⟩ := by
  have h1 : (pyPartition line "!").1.data = line.data.takeWhile (fun x => ! x = '!') := by
    have hfst := partW_single_fst '!' line.data
    unfold pyPartition
    rw [dBang]
    cases hpt : partW ['!'] line.data with
    | some p =>
      rw [hpt] at hfst
      simp [hpt]
      exact hfst
    | none =>
      rw [hpt] at hfst
      simp [hpt]
      exact hfst
  unfold getNick pyLstripColon
  rw [String.ext_iff]
  show (pyPartition line "!").1.data.dropWhile (· = ':') = _
  rw [h1, dropWhile_takeWhile_colon_comm]

/-- C10: `Bot.say` with no channel broadcasts: one `PRIVMSG <channel> :<text>`
line per configured channel, in the configured order, and an empty message
writes nothing at all. -/
theorem C10_broadcast (cfg : Config) (message : String) :
    sayLines cfg message none =
      if message = "" then []
      else cfg.channels.map (fun c => "PRIVMSG " ++ c ++ " :" ++ message ++ "\r\n") := by
  by_cases hm : message = ""
  · subst hm
    have hfun : (fun ch => sayOne "" ch) = (fun _ => ([] : List String)) := by
      funext ch
      simp [sayOne]
    show gather (fun ch => sayOne "" ch) cfg.channels = _
    rw [hfun, gather_const_nil]
    simp
  · have hfun : (fun ch => sayOne message ch) =
        (fun c => ["PRIVMSG " ++ c ++ " :" ++ message ++ "\r\n"]) := by
      funext c
      simp [sayOne, hm]
    show gather (fun ch => sayOne message ch) cfg.channels = _
    rw [hfun, gather_singleton_map]
    simp [hm]

/-- C8: every reconnection closes the writer and replays the full handshake:
`USER`, then `NICK`, then `PRIVMSG NickServ :IDENTIFY` exactly when a
(nonempty, per Python truthiness) password is configured, then after the
default 20-unit join delay a `JOIN` for every configured channel in order. -/
theorem C8_reconnect_replays_handshake (cfg : Config) :
    reconnectTrace cfg =
      ConnEvent.closeConn :: ConnEvent.openConn ::
      ConnEvent.send ("USER " ++ cfg.nick ++ " 8 * :" ++ cfg.nick ++ "\r\n") ::
      ConnEvent.send ("NICK " ++ cfg.nick ++ "\r\n") ::
      ((match cfg.password with
        | some p =>
          if p = "" then []
          else [ConnEvent.send ("PRIVMSG NickServ :IDENTIFY " ++ p ++ "\r\n")]
        | none => []) ++
       (ConnEvent.sleep 20 ::
        cfg.channels.map (fun c => ConnEvent.send ("JOIN " ++ c ++ "\r\n")))) := by
  cases hp : cfg.password <;>
    simp [reconnectTrace, connectTrace, registerLine, nickLine, identifyLine,
      joinChannelsTrace, hp]

/-- C6: registering a subclass attribute (in particular a handler or periodic
task) whose name is already in the class-level `_attrs` registry makes
`Bot.__init_subclass__` log and `sys.exit(1)` — the `Except.error` outcome —
so the process never continues with one descriptor overwriting the other. -/
theorem C6_duplicate_name_fatal (st : RegState) (a : ClassAttr)
    (rest : List ClassAttr) (h1 : a.name ∈ st.attrs) (h2 : a.name ≠ "__doc__")
    (h3 : a.name ≠ "__module__") :
    initSubclass st (a :: rest) = Except.error a.name := by
  simp [initSubclass, registerAttr, h1, h2, h3]

/-- C6 witness: a second handler named `ping` after a first bot class already
registered `ping` is a fatal duplicate-name error. -/
theorem C6_duplicate_name_fatal_witness :
    initSubclass ⟨["ping"], ["ping"], []⟩ [⟨"ping", true, false⟩] =
      Except.error "ping" :=
  C6_duplicate_name_fatal ⟨["ping"], ["ping"], []⟩ ⟨"ping", true, false⟩ []
    (by decide) (by decide) (by decide)

/-- C4: on a line beginning with `PING`, the very first effect of processing
that line is the synchronous `PONG :<host>` write — `Bot._process_text` runs
`Bot._reply_to_ping` before error handling, empty-line handling, kick rejoin
and handler dispatch. -/
theorem C4_pong_before_everything (cfg : Config) (line : String)
    (h : pyStartswith line "PING" = true) :
    (processOneLine cfg line).1.head? =
      some (Effect.write ("PONG :" ++ cfg.hostname ++ "\r\n")) := by
  have hping : replyToPing cfg line =
      [Effect.write ("PONG :" ++ cfg.hostname ++ "\r\n")] := by
    simp [replyToPing, h]
  by_cases hl : line = ""
  · subst hl
    exact absurd h (by decide)
  · simp [processOneLine, hl, hping]

/-- C4 witness: a concrete `PING` line gets the `PONG` write first. -/
theorem C4_pong_before_everything_witness :
    (processOneLine ⟨"irc.example.org", "bot", ["#c"], none⟩ "PING :tok").1.head? =
      some (Effect.write ("PONG :" ++ "irc.example.org" ++ "\r\n")) :=
  C4_pong_before_everything ⟨"irc.example.org", "bot", ["#c"], none⟩ "PING :tok"
    (by decide)

/-- C3, counterexample: when the receive timeout fires (and likewise on an
empty read), `Bot._start_irc_bot` runs `Bot._shutdown` — close the writer and
`sys.exit(1)`, i.e. terminate the process — and never `Bot._reconnect`; the
claim instead demands a reconnection.  `Effect.shutdown` is process
termination, `Effect.reconnect` would be the claimed close-and-restart. -/
theorem C3_counterexample :
    startIrcBotStep ⟨"h", "bot", ["#c"], none⟩ RecvResult.timeout =
      [Effect.shutdown] ∧
    startIrcBotStep ⟨"h", "bot", ["#c"], none⟩ (RecvResult.data "") =
      [Effect.shutdown] ∧
    Effect.reconnect ∉
      startIrcBotStep ⟨"h", "bot", ["#c"], none⟩ RecvResult.timeout ∧
    Effect.reconnect ∉
      startIrcBotStep ⟨"h", "bot", ["#c"], none⟩ (RecvResult.data "") := by
  refine ⟨rfl, by decide, by decide, by decide⟩

/-- C3, amended: when no data arrives within the timeout window, or a read
returns no data, the bot closes the connection and terminates the process
(shutdown with exit code 1); it does not reconnect. -/
theorem C3_idle_and_empty_shutdown (cfg : Config) :
    startIrcBotStep cfg RecvResult.timeout = [Effect.shutdown] ∧
    processText cfg "" = [Effect.shutdown] ∧
    Effect.reconnect ∉ startIrcBotStep cfg RecvResult.timeout ∧
    Effect.reconnect ∉ processText cfg "" := by
  have hsplit : pySplit "" "\r\n" = [""] := by decide
  have hrp : replyToPing cfg "" = [] := by
    simp [replyToPing, show pyStartswith "" "PING" = false from by decide]
  have herr : handleErrorResponse "" = [] := by
    simp [handleErrorResponse, show pyStartswith "" "ERROR" = false from by decide]
  have hpt : processText cfg "" = [Effect.shutdown] := by
    unfold processText
    rw [hsplit]
    simp [processLines, processOneLine, hrp, herr]
  refine ⟨rfl, hpt, by simp [startIrcBotStep], by simp [hpt]⟩

/-- C2, counterexample: on the line `ERROR KICK #c bot` the bot reconnects
exactly once and then KEEPS processing the same line — the kick-rejoin check
still fires and writes `JOIN #c`, and the loop does not halt (`false`),
contradicting the claim that no further processing of the line occurs after
the reconnection. -/
theorem C2_counterexample :
    processOneLine ⟨"h", "bot", ["#c"], none⟩ "ERROR KICK #c bot" =
      ([Effect.reconnect, Effect.write "JOIN #c\r\n"], false) := by
  decide

/-- C2, amended: a line beginning with `ERROR` triggers exactly one
reconnection sequence, but processing of that same line continues afterwards:
the kick-rejoin check and the handler dispatch still run on it (and the empty
-line check was a no-op since the line is nonempty). -/
theorem C2_error_reconnects_but_continues (cfg : Config) (line : String)
    (h : pyStartswith line "ERROR" = true) :
    (processOneLine cfg line).1 =
      Effect.reconnect :: (rejoinWhenKicked cfg line ++ processLine cfg line) ∧
    (processOneLine cfg line).1.count Effect.reconnect = 1 ∧
    (processOneLine cfg line).2 = false := by
  obtain ⟨cs, hcs⟩ := pyStartswith_head line "ERROR" 'E' ['R', 'R', 'O', 'R']
    (by decide) h
  have hne : line ≠ "" := by
    intro he
    rw [he] at hcs
    simp at hcs
  have hping : pyStartswith line "PING" = false :=
    pyStartswith_false_of_ne_head line "PING" 'E' 'P' cs ['I', 'N', 'G'] hcs
      (by decide) (by decide)
  have herr : handleErrorResponse line = [Effect.reconnect] := by
    simp [handleErrorResponse, h]
  have hrp : replyToPing cfg line = [] := by
    simp [replyToPing, hping]
  have heq : (processOneLine cfg line).1 =
      Effect.reconnect :: (rejoinWhenKicked cfg line ++ processLine cfg line) := by
    simp [processOneLine, hne, herr, hrp]
  have hnotmem : Effect.reconnect ∉
      rejoinWhenKicked cfg line ++ processLine cfg line := by
    intro hm
    rcases List.mem_append.mp hm with hm1 | hm2
    · obtain ⟨c, hc⟩ := mem_rejoinWhenKicked cfg line _ hm1
      exact Effect.noConfusion hc
    · obtain ⟨t, ht⟩ := mem_processLine cfg line _ hm2
      exact Effect.noConfusion ht
  have hcount : (processOneLine cfg line).1.count Effect.reconnect = 1 := by
    rw [heq, List.count_cons_self, List.count_eq_zero.mpr hnotmem]
  have hb : (processOneLine cfg line).2 = false := by
    simp [processOneLine, hne]
  exact ⟨heq, hcount, hb⟩

/-- C2 witness: a concrete `ERROR` line, with the amended behavior. -/
theorem C2_error_reconnects_but_continues_witness :
    (processOneLine ⟨"h", "bot", ["#c"], none⟩ "ERROR :closing").1 =
      Effect.reconnect ::
        (rejoinWhenKicked ⟨"h", "bot", ["#c"], none⟩ "ERROR :closing" ++
         processLine ⟨"h", "bot", ["#c"], none⟩ "ERROR :closing") ∧
    (processOneLine ⟨"h", "bot", ["#c"], none⟩ "ERROR :closing").1.count
      Effect.reconnect = 1 ∧
    (processOneLine ⟨"h", "bot", ["#c"], none⟩ "ERROR :closing").2 = false :=
  C2_error_reconnects_but_continues ⟨"h", "bot", ["#c"], none⟩ "ERROR :closing"
    (by decide)

/-- C7: a control line `<channel> <text>` whose channel is configured sends
the remainder through `Bot.say` (the Connection Manager's send path) and
echoes `'<text>'` back; an unconfigured channel echoes
`'Unknown channel: <channel>'` and writes nothing to the IRC transport; an
empty control input line ends the control connection (only the prompt was
written, the connection closes, later inputs are never processed). -/
theorem C7_control_listener (cfg : Config) (channel text : String)
    (rest : List String) (hsp : ' ' ∉ channel.data) :
    (channel ∈ cfg.channels →
        processSocketServerText cfg (channel ++ " " ++ text) =
          (sayLines cfg text (some channel), ["\x27" ++ text ++ "\x27\n"])) ∧
    (channel ∉ cfg.channels →
        processSocketServerText cfg (channel ++ " " ++ text) =
          ([], ["\x27Unknown channel: " ++ channel ++ "\x27\n"])) ∧
    socketServerLoop cfg ("" :: rest) = ([], [">>> "], true) := by
  have hpart : pyPartition (channel ++ " " ++ text) " " = (channel, " ", text) := by
    apply pyPartition_append
    · rw [dSpace]
      intro hc
      exact List.noConfusion hc
    · rw [dSpace]
      simp only [List.dropLast_single, List.append_nil]
      exact isSub_single_false ' ' channel.data hsp
  refine ⟨?_, ?_, ?_⟩
  · intro hmem
    simp [processSocketServerText, hpart, hmem]
  · intro hmem
    simp [processSocketServerText, hpart, hmem]
  · simp [socketServerLoop, show pyStrip "" = "" from rfl]

/-- C7 witness: `#general hello` on a bot configured with `#general`, and the
closing of the connection on an empty input. -/
theorem C7_control_listener_witness :
    (("#general" : String) ∈ (⟨"h", "bot", ["#general"], none⟩ : Config).channels →
        processSocketServerText ⟨"h", "bot", ["#general"], none⟩
            ("#general" ++ " " ++ "hello") =
          (sayLines ⟨"h", "bot", ["#general"], none⟩ "hello" (some "#general"),
           ["\x27" ++ "hello" ++ "\x27\n"])) ∧
    (("#general" : String) ∉ (⟨"h", "bot", ["#general"], none⟩ : Config).channels →
        processSocketServerText ⟨"h", "bot", ["#general"], none⟩
            ("#general" ++ " " ++ "hello") =
          ([], ["\x27Unknown channel: " ++ "#general" ++ "\x27\n"])) ∧
    socketServerLoop ⟨"h", "bot", ["#general"], none⟩ ("" :: []) =
      ([], [">>> "], true) :=
  C7_control_listener ⟨"h", "bot", ["#general"], none⟩ "#general" "hello" []
    (by decide)

/-- C5: the `command` wrapper spawns its handler exactly when the registered
string equals the trigger's message (exact equality, so a trailing space
breaks the match), and the `regex` wrapper spawns its handler exactly when
`re.match` succeeds on the message — a match anchored at the start, so the
matched text is a prefix of the message — and the spawned handler receives
the trigger with the match's captured groups stored on it. -/
theorem C5_predicate_matching (cmd : String) (r : Re) (t : Trigger) :
    (commandWrapper cmd t ≠ [] ↔ cmd = t.message) ∧
    (commandWrapper cmd t ≠ [] → commandWrapper cmd t = [t]) ∧
    (regexWrapper r t ≠ [] ↔ (reMatch r t.message).isSome = true) ∧
    (∀ whole groups, reMatch r t.message = some (whole, groups) →
        regexWrapper r t =
          [⟨t.channel, t.nick, t.message, some (whole, groups)⟩] ∧
        whole.data.isPrefixOf t.message.data = true) := by
  refine ⟨?_, ?_, ?_, ?_⟩
  · by_cases h : cmd = t.message <;> simp [commandWrapper, h]
  · by_cases h : cmd = t.message <;> simp [commandWrapper, h]
  · cases hm : reMatch r t.message <;> simp [regexWrapper, hm]
  · intro whole groups hm
    refine ⟨by simp [regexWrapper, hm], ?_⟩
    unfold reMatch at hm
    cases hh : (reRuns r t.message.data).head? with
    | none =>
      rw [hh] at hm
      simp at hm
    | some p =>
      rw [hh] at hm
      have hpair := Option.some.inj hm
      have hw : whole =
          ⟨t.message.data.take (t.message.data.length - p.1.length)⟩ :=
        (congrArg Prod.fst hpair).symm
      rw [hw]
      exact List.isPrefixOf_iff_prefix.mpr
        (List.take_prefix (t.message.data.length - p.1.length) t.message.data)

/-- C5 witness: `!ping ` (trailing space) does not equal `!ping` so the exact
-match side rejects it; the pattern `!echo (.+)$` matched against
`!echo hi` spawns the handler with group 1 = `hi` attached, and the matched
text is a prefix of the message. -/
theorem C5_predicate_matching_witness :
    (commandWrapper "!ping" ⟨"#c", "alice", "!ping ", none⟩ ≠ [] ↔
      ("!ping" : String) = "!ping ") ∧
    (regexWrapper
        (Re.seq (reStr "!echo ".data) (Re.seq (Re.group (Re.plus Re.any)) Re.eos))
        ⟨"#c", "alice", "!echo hi", none⟩ =
      [⟨"#c", "alice", "!echo hi", some ("!echo hi", [some "hi"])⟩] ∧
      ("!echo hi" : String).data.isPrefixOf ("!echo hi" : String).data = true) :=
  ⟨(C5_predicate_matching "!ping"
      (Re.seq (reStr "!echo ".data) (Re.seq (Re.group (Re.plus Re.any)) Re.eos))
      ⟨"#c", "alice", "!ping ", none⟩).1,
   (C5_predicate_matching "!ping"
      (Re.seq (reStr "!echo ".data) (Re.seq (Re.group (Re.plus Re.any)) Re.eos))
      ⟨"#c", "alice", "!echo hi", none⟩).2.2.2 "!echo hi" [some "hi"] (by decide)⟩

theorem dropWhile_colon_cons_colon (l : List Char) :
    (':' :: l).dropWhile (· = ':') = l.dropWhile (· = ':') := by
  simp [List.dropWhile_cons]

/-- C1, counterexample: with configured channels `#gen` and `#general` (one a
prefix of the other), the single inbound line
`:alice!u PRIVMSG #general :bot: hi` — exactly the claimed form with
C = `#general` — produces TWO triggers, one per configured channel whose
`PRIVMSG <channel>` tag occurs as a substring of the line, not exactly one
trigger with channel `#general`. -/
theorem C1_counterexample :
    processLine ⟨"h", "bot", ["#gen", "#general"], none⟩
        ":alice!u PRIVMSG #general :bot: hi" =
      [Effect.trigger ⟨"#gen", "alice", "hi", none⟩,
       Effect.trigger ⟨"#general", "alice", "hi", none⟩] ∧
    processLine ⟨"h", "bot", ["#gen", "#general"], none⟩
        ":alice!u PRIVMSG #general :bot: hi" ≠
      [Effect.trigger ⟨"#general", "alice", "hi", none⟩] :=
  ⟨by decide, by decide⟩

/-- C1, amended: on a well-formed line `:<nick>!<user> PRIVMSG <C> :<bot>:
<text>` for a configured channel C, the dispatcher produces one Trigger per
configured channel whose `PRIVMSG <channel>` tag occurs as a substring of the
line — always including C — each with the sender's nick and the
whitespace-trimmed text; it is exactly the one Trigger for C precisely when C
is configured once and no other configured channel's tag occurs in the line
(which fails e.g. when another configured channel is a prefix of C). -/
theorem C1_exactly_one_trigger (cfg : Config) (nick user channel text : String)
    (hC : channel ∈ cfg.channels)
    (hbang : '!' ∉ nick.data)
    (hcol : pyStartswith nick ":" = false)
    (hpm : pyIn "PRIVMSG" (":" ++ nick ++ "!" ++ user ++ " PRIVMS") = false)
    (hchan : ':' ∉ channel.data)
    (hbot : ':' ∉ cfg.nick.data) :
    Effect.trigger ⟨channel, nick, pyStrip text, none⟩ ∈
        processLine cfg (mkLine nick user channel cfg.nick text) ∧
    (∀ e ∈ processLine cfg (mkLine nick user channel cfg.nick text),
        ∃ c, c ∈ cfg.channels ∧
          pyIn ("PRIVMSG " ++ c) (mkLine nick user channel cfg.nick text) = true ∧
          e = Effect.trigger ⟨c, nick, pyStrip text, none⟩) ∧
    ((cfg.channels.count channel = 1 ∧
      ∀ c ∈ cfg.channels, c ≠ channel →
        pyIn ("PRIVMSG " ++ c) (mkLine nick user channel cfg.nick text) = false) →
      processLine cfg (mkLine nick user channel cfg.nick text) =
        [Effect.trigger ⟨channel, nick, pyStrip text, none⟩]) := by
  have hsplit1 : mkLine nick user channel cfg.nick text =
      (":" ++ nick) ++ "!" ++
        (user ++ " PRIVMSG " ++ channel ++ " :" ++ cfg.nick ++ ": " ++ text) := by
    unfold mkLine
    simp [String.append_assoc]
  have hpart1 : pyPartition (mkLine nick user channel cfg.nick text) "!" =
      (":" ++ nick, "!",
       user ++ " PRIVMSG " ++ channel ++ " :" ++ cfg.nick ++ ": " ++ text) := by
    rw [hsplit1]
    apply pyPartition_append
    · rw [dBang]
      intro hc
      exact List.noConfusion hc
    · rw [dBang]
      simp only [List.dropLast_single, List.append_nil]
      apply isSub_single_false
      rw [String.data_append, dColon]
      simp [hbang, show ('!' : Char) ≠ ':' from by decide]
  have hdw : nick.data.dropWhile (· = ':') = nick.data :=
    dropWhile_of_head_ne ':' nick.data
      (head_ne_of_startswith_false nick ":" ':' dColon hcol)
  have hnick : getNick (mkLine nick user channel cfg.nick text) = nick := by
    unfold getNick
    rw [hpart1]
    unfold pyLstripColon
    rw [String.ext_iff]
    show ((":" ++ nick : String)).data.dropWhile (· = ':') = nick.data
    rw [String.data_append, dColon,
      show ([':'] ++ nick.data : List Char) = ':' :: nick.data from rfl,
      dropWhile_colon_cons_colon, hdw]
  have hsplit2 : mkLine nick user channel cfg.nick text =
      (":" ++ nick ++ "!" ++ user ++ " ") ++ "PRIVMSG" ++
        (" " ++ channel ++ " :" ++ cfg.nick ++ ": " ++ text) := by
    unfold mkLine
    rw [String.ext_iff]
    simp [String.data_append, dColon, dBang, dSpace, dPRIVMSG, dSpPRIVMSGsp,
      dSpColon, dColonSp]
  have hdropP : ("PRIVMSG" : String).data.dropLast = ['P', 'R', 'I', 'V', 'M', 'S'] := by
    decide
  have hpart2 : pyPartition (mkLine nick user channel cfg.nick text) "PRIVMSG" =
      (":" ++ nick ++ "!" ++ user ++ " ", "PRIVMSG",
       " " ++ channel ++ " :" ++ cfg.nick ++ ": " ++ text) := by
    rw [hsplit2]
    apply pyPartition_append
    · rw [dPRIVMSG]
      intro hc
      exact List.noConfusion hc
    · have hconv : (":" ++ nick ++ "!" ++ user ++ " " : String).data ++
          ("PRIVMSG" : String).data.dropLast =
          (":" ++ nick ++ "!" ++ user ++ " PRIVMS" : String).data := by
        simp [String.data_append, dColon, dBang, dSpace, hdropP, dSpPRIVMS]
      rw [hconv]
      exact hpm
  have hlitC : (" :" : String) = " " ++ ":" := by decide
  have hsplit3 : (" " ++ channel ++ " :" ++ cfg.nick ++ ": " ++ text : String) =
      (" " ++ channel ++ " ") ++ ":" ++ (cfg.nick ++ ": " ++ text) := by
    rw [hlitC]
    simp [String.append_assoc]
  have hpart3 : pyPartition (" " ++ channel ++ " :" ++ cfg.nick ++ ": " ++ text) ":" =
      (" " ++ channel ++ " ", ":", cfg.nick ++ ": " ++ text) := by
    rw [hsplit3]
    apply pyPartition_append
    · rw [dColon]
      intro hc
      exact List.noConfusion hc
    · rw [dColon]
      simp only [List.dropLast_single, List.append_nil]
      apply isSub_single_false
      simp [String.data_append, dSpace, hchan, show (':' : Char) ≠ ' ' from by decide]
  have hmsg : getMessage (mkLine nick user channel cfg.nick text) =
      cfg.nick ++ ": " ++ text := by
    unfold getMessage
    rw [hpart2]
    show (pyPartition (" " ++ channel ++ " :" ++ cfg.nick ++ ": " ++ text) ":").2.2 = _
    rw [hpart3]
  have hmsgsplit : (cfg.nick ++ ": " ++ text : String) =
      cfg.nick ++ ":" ++ (" " ++ text) := by
    rw [String.ext_iff]
    simp [String.data_append, dColonSp, dColon, dSpace]
  have hsw : pyStartswith (cfg.nick ++ ": " ++ text) (cfg.nick ++ ":") = true := by
    rw [hmsgsplit]
    exact pyStartswith_append_left (cfg.nick ++ ":") (" " ++ text)
  have hpart4 : pyPartition (cfg.nick ++ ": " ++ text) ":" =
      (cfg.nick, ":", " " ++ text) := by
    rw [hmsgsplit]
    apply pyPartition_append
    · rw [dColon]
      intro hc
      exact List.noConfusion hc
    · rw [dColon]
      simp only [List.dropLast_single, List.append_nil]
      exact isSub_single_false ':' cfg.nick.data hbot
  have hstr : pyStrip (" " ++ text) = pyStrip text := by
    unfold pyStrip
    rw [String.ext_iff]
    show stripW ((" " ++ text : String)).data = stripW text.data
    rw [String.data_append, dSpace,
      show ([' '] ++ text.data : List Char) = ' ' :: text.data from rfl,
      stripW_cons_space]
  have hplo : processLine cfg (mkLine nick user channel cfg.nick text) =
      gather (fun c =>
          if pyIn ("PRIVMSG " ++ c) (mkLine nick user channel cfg.nick text)
          then [Effect.trigger ⟨c, nick, pyStrip text, none⟩] else [])
        cfg.channels := by
    simp only [processLine]
    rw [hnick, hmsg, hpart4]
    show (if pyStartswith (cfg.nick ++ ": " ++ text) (cfg.nick ++ ":") = false
          then ([] : List Effect)
          else gather (fun c =>
            if pyIn ("PRIVMSG " ++ c) (mkLine nick user channel cfg.nick text)
            then [Effect.trigger ⟨c, nick, pyStrip (" " ++ text), none⟩] else [])
            cfg.channels) = _
    rw [hstr, hsw]
    simp
  have hsubC : pyIn ("PRIVMSG " ++ channel)
      (mkLine nick user channel cfg.nick text) = true := by
    unfold pyIn
    rw [isSub_iff]
    refine ⟨(":" ++ nick ++ "!" ++ user ++ " ").data,
            (" :" ++ cfg.nick ++ ": " ++ text).data, ?_⟩
    unfold mkLine
    simp [String.data_append, dColon, dBang, dSpace, dPRIVMSGsp, dSpPRIVMSGsp,
      dSpColon, dColonSp]
  refine ⟨?_, ?_, ?_⟩
  · rw [hplo, mem_gather]
    refine ⟨channel, hC, ?_⟩
    simp [hsubC]
  · intro e he
    rw [hplo, mem_gather] at he
    obtain ⟨c, hc, hfc⟩ := he
    cases hcond : pyIn ("PRIVMSG " ++ c) (mkLine nick user channel cfg.nick text) with
    | false =>
      rw [hcond] at hfc
      simp at hfc
    | true =>
      rw [hcond] at hfc
      simp at hfc
      exact ⟨c, hc, hcond, hfc⟩
  · rintro ⟨hcount, hothers⟩
    have hfn : ∀ y ∈ cfg.channels, y ≠ channel →
        (if pyIn ("PRIVMSG " ++ y) (mkLine nick user channel cfg.nick text)
         then [Effect.trigger ⟨y, nick, pyStrip text, none⟩] else []) = [] := by
      intro y hy hyne
      rw [hothers y hy hyne]
      simp
    rw [hplo, gather_single hcount hfn]
    simp [hsubC]

/-- C1 witness: a bot configured with the single channel `#general` gets
exactly one trigger, with the surrounding whitespace of the text trimmed,
from `:alice!u PRIVMSG #general :bot:  hi `. -/
theorem C1_exactly_one_trigger_witness :
    processLine ⟨"h", "bot", ["#general"], none⟩
        (mkLine "alice" "u" "#general" "bot" " hi ") =
      [Effect.trigger ⟨"#general", "alice", pyStrip " hi ", none⟩] :=
  (C1_exactly_one_trigger ⟨"h", "bot", ["#general"], none⟩ "alice" "u" "#general"
      " hi " (by decide) (by decide) (by decide) (by decide) (by decide)
      (by decide)).2.2 ⟨by decide, by decide⟩
